import Mathlib

/-!
clink: `os_lua_api` (src/clink/lib/lua/os_lua_api.cpp)

A shallow embedding of the Lua binding layer that exposes the host's
filesystem operations to the embedded interpreter, and theorems about it.

* The Lua state is an explicit record: the value stack of the running C
  function (index 1 first, top last), a heap of tables, the global names,
  and a ghost log of the calls made to the `os::` facade and the globber.
* The Lua C API functions used by the source follow the Lua 5.3 reference
  manual (no metatables, numbers restricted to integers).
* The `os::` facade and the globber are not part of this source file: they
  are a parameter (`os`) of every function that calls them.
-/

namespace Clink

/-! ## Data model -/

/-- The twelve native functions of `os_lua_api`, as function identities.  -/
inductive CFunction where
  | chdir | getcwd | mkdir | rmdir | isdir | isfile
  | remove | rename | copy | globdirs | globfiles | getenv
  deriving DecidableEq, Repr

/-- A Lua value.  Tables are references into the heap; `lfunction`,
`userdata` and `thread` stand for the remaining kinds of value, which this
layer never inspects.  -/
inductive LuaValue where
  | nil
  | boolean (b : Bool)
  | number (n : Int)
  | string (str : String)
  | table (ref : Nat)
  | cfunction (f : CFunction)
  | lfunction (id : Nat)
  | userdata (id : Nat)
  | thread (id : Nat)
  deriving DecidableEq, Repr

/-- A table: its non-nil fields, latest first.  -/
abbrev Table := List (LuaValue × LuaValue)

/-- The field `t[k]`; an absent field reads as nil.  -/
def Table.get (t : Table) (k : LuaValue) : LuaValue :=
  match t with
  | [] => .nil
  | (k', v) :: rest => if k' = k then v else Table.get rest k

/-- Remove the field `k`.  -/
def Table.erase (t : Table) (k : LuaValue) : Table :=
  match t with
  | [] => []
  | (k', v) :: rest => if k' = k then Table.erase rest k else (k', v) :: Table.erase rest k

/-- The raw assignment `t[k] = v`; assigning nil removes the field.  -/
def Table.set (t : Table) (k v : LuaValue) : Table :=
  if v = .nil then Table.erase t k else (k, v) :: Table.erase t k

/-- Modelled from the spec: the kind of a path that `os::get_path_type`
answers.  The enumeration is declared in core/os.h, which is absent; the
source names `path_type_dir` and `path_type_file`, and the spec's facade has
`path_kind(path)` answering one of file, directory, other, nonexistent.  -/
inductive path_type where
  | path_type_invalid
  | path_type_file
  | path_type_dir
  | path_type_other
  deriving DecidableEq, Repr

/-- The configuration of one glob traversal, `globber::context`, in the
order of its aggregate initialiser: mask, extra root prefix, directories
only.  -/
structure context where
  mask : String
  root : String
  dirs_only : Bool
  deriving DecidableEq, Repr

/-- One call made to the facade or to the globber (ghost log entry).  -/
inductive OsCall where
  | set_current_dir (dir : String)
  | get_current_dir
  | make_dir (dir : String)
  | remove_dir (dir : String)
  | get_path_type (path : String)
  | unlink (path : String)
  | move (src dest : String)
  | copy (src dest : String)
  | get_env (name : String)
  | globber (ctx : context)
  | globber_next
  deriving DecidableEq, Repr

/-- The filesystem facade `os::` and the globber, which live outside this
source file: what each primitive answers.  `glob ctx` is the sequence of
paths that the `next()` of a globber built over `ctx` yields before it
signals exhaustion.  -/
structure os where
  set_current_dir : String → Bool
  get_current_dir : String
  make_dir : String → Bool
  remove_dir : String → Bool
  get_path_type : String → path_type
  unlink : String → Bool
  move : String → String → Bool
  copy : String → String → Bool
  get_env : String → Option String
  glob : context → List String

/-- The state a native function works on.  `stack` is the stack of the
running C function (index 1 is the head, the top is the last element),
`heap` holds the tables, `globals` the global names, and `calls` is the
ghost log of facade and globber calls, oldest first.  -/
structure lua_State where
  stack : List LuaValue
  heap : List Table
  globals : List (String × LuaValue)
  calls : List OsCall
  deriving DecidableEq, Repr

/-- An error raised by the Lua API.  -/
inductive LuaError where
  | index_non_table
  | api_check
  deriving DecidableEq, Repr

/-! ## The Lua C API -/

/-- The bytes a `const char*` reader sees: up to the first NUL.  -/
def c_str (str : String) : String :=
  String.mk (str.data.takeWhile (fun c => c ≠ Char.ofNat 0))

/-- Number of values on the stack, `lua_gettop`.  -/
def lua_gettop (s : lua_State) : Int := s.stack.length

/-- The stack position an index designates: positive indices count from
the bottom, negative ones from the top.  Index 0, indices beyond the top,
and pseudo-indices designate no stack slot.  -/
def stack_pos (s : lua_State) (index : Int) : Option Nat :=
  if 0 < index then
    if index ≤ s.stack.length then some (index - 1).toNat else none
  else if index < 0 ∧ -index ≤ s.stack.length then
    some (s.stack.length + index).toNat
  else none

/-- The value at an index, `none` for an index that holds no value
(`LUA_TNONE`).  The registry pseudo-index holds a table, which no function
here tells apart from the absence of a value.  -/
def index2value (s : lua_State) (index : Int) : Option LuaValue :=
  match stack_pos s index with
  | some p => s.stack[p]?
  | none => none

/-- The test `lua_isstring`: true for a string and for a number.  -/
def lua_isstring (s : lua_State) (index : Int) : Bool :=
  match index2value s index with
  | some (.string _) => true
  | some (.number _) => true
  | _ => false

/-- The conversion `lua_tostring`: the string at the index, a number being
converted to a string in place; any other value gives the null pointer.  -/
def lua_tostring (s : lua_State) (index : Int) : Option String × lua_State :=
  match index2value s index with
  | some (.string str) => (some (c_str str), s)
  | some (.number n) =>
    match stack_pos s index with
    | some p => (some (toString n), { s with stack := s.stack.set p (.string (toString n)) })
    | none => (some (toString n), s)
  | _ => (none, s)

/-- Push a value on the stack.  -/
def push (s : lua_State) (v : LuaValue) : lua_State :=
  { s with stack := s.stack ++ [v] }

/-- Push a boolean, `lua_pushboolean`.  -/
def lua_pushboolean (s : lua_State) (b : Bool) : lua_State := push s (.boolean b)

/-- Push a copy of a C string, `lua_pushstring`.  -/
def lua_pushstring (s : lua_State) (str : String) : lua_State := push s (.string str)

/-- Push nil, `lua_pushnil`.  -/
def lua_pushnil (s : lua_State) : lua_State := push s .nil

/-- Push an integer, `lua_pushinteger`.  -/
def lua_pushinteger (s : lua_State) (n : Int) : lua_State := push s (.number n)

/-- Push a native function, `lua_pushcfunction`.  -/
def lua_pushcfunction (s : lua_State) (f : CFunction) : lua_State := push s (.cfunction f)

/-- Create an empty table and push it, `lua_createtable`; the size hints
do not change the result.  -/
def lua_createtable (s : lua_State) (_narr _nrec : Int) : lua_State :=
  { s with stack := s.stack ++ [.table s.heap.length], heap := s.heap ++ [[]] }

/-- The value of a global name; an unset name reads as nil.  -/
def global (s : lua_State) (name : String) : LuaValue :=
  match s.globals.lookup name with
  | some v => v
  | none => .nil

/-- Push the value of a global name, `lua_getglobal`.  -/
def lua_getglobal (s : lua_State) (name : String) : lua_State := push s (global s name)

/-- The assignment `t[k] = v` where `t` is the value at `index` and `v` the
value on the top, which is popped.  -/
def settable (s : lua_State) (index : Int) (k : LuaValue) (e : LuaError) :
    Except LuaError lua_State :=
  match s.stack.getLast?, index2value s index with
  | some v, some (.table r) =>
    match s.heap[r]? with
    | some t => .ok { s with stack := s.stack.dropLast, heap := s.heap.set r (Table.set t k v) }
    | none => .error .api_check
  | some _, some _ => .error e
  | _, _ => .error .api_check

/-- The assignment `t[name] = v`, `lua_setfield`; indexing a value that is
not a table raises an error.  -/
def lua_setfield (s : lua_State) (index : Int) (name : String) : Except LuaError lua_State :=
  settable s index (.string name) .index_non_table

/-- The raw assignment `t[i] = v`, `lua_rawseti`; the value at the index
must be a table.  -/
def lua_rawseti (s : lua_State) (index : Int) (i : Int) : Except LuaError lua_State :=
  settable s index (.number i) .api_check

/-- Append an entry to the ghost log.  -/
def log (s : lua_State) (c : OsCall) : lua_State :=
  { s with calls := s.calls ++ [c] }

/-! ## os_lua_api -/

/-- The methods table of `initialise`, in source order.  -/
def methods : List (String × CFunction) :=
  [ ("chdir", .chdir), ("getcwd", .getcwd), ("mkdir", .mkdir), ("rmdir", .rmdir),
    ("isdir", .isdir), ("isfile", .isfile), ("remove", .remove), ("rename", .rename),
    ("copy", .copy), ("globdirs", .globdirs), ("globfiles", .globfiles),
    ("getenv", .getenv) ]

/-- The loop of `initialise` over the methods table.  -/
def initialise_loop (ms : List (String × CFunction)) (s : lua_State) :
    Except LuaError lua_State :=
  match ms with
  | [] => .ok s
  | m :: rest =>
    match lua_setfield (lua_pushcfunction s m.2) (-2) m.1 with
    | .ok s' => initialise_loop rest s'
    | .error e => .error e

/-- The registration `os_lua_api::initialise`.  -/
def initialise (s : lua_State) : Except LuaError lua_State :=
  initialise_loop methods (lua_getglobal s "os")

/-- The accessor `os_lua_api::get_string`.  -/
def get_string (s : lua_State) (index : Int) : Option String × lua_State :=
  if lua_gettop s < index || lua_isstring s index then (none, s)
  else lua_tostring s index

/-- Modelled from the spec: the default value of the `index` parameter of
`get_string`.  The declaration is in os_lua_api.h, which is absent;
`get_string(state)` reads the one argument that the spec's operations take
(`glob_files(mask)`), the first value of the stack.  -/
def get_string_index : Int := 1

/-- The result of a native function: the number of values it returns,
which Lua takes from the top of the stack, and the state it leaves.  -/
abbrev Result := Except LuaError (Int × lua_State)

/-- The native function `os_lua_api::chdir`.  -/
def chdir (fs : os) (s : lua_State) : Result :=
  match get_string s get_string_index with
  | (some dir, s1) =>
    .ok (1, lua_pushboolean (log s1 (.set_current_dir dir)) (fs.set_current_dir dir == true))
  | (none, s1) => .ok (1, lua_pushboolean s1 (false == true))

/-- The native function `os_lua_api::getcwd`.  -/
def getcwd (fs : os) (s : lua_State) : Result :=
  .ok (1, lua_pushstring (log s .get_current_dir) fs.get_current_dir)

/-- The native function `os_lua_api::mkdir`.  -/
def mkdir (fs : os) (s : lua_State) : Result :=
  match get_string s get_string_index with
  | (some dir, s1) =>
    .ok (1, lua_pushboolean (log s1 (.make_dir dir)) (fs.make_dir dir == true))
  | (none, s1) => .ok (1, lua_pushboolean s1 (false == true))

/-- The native function `os_lua_api::rmdir`.  -/
def rmdir (fs : os) (s : lua_State) : Result :=
  match get_string s get_string_index with
  | (some dir, s1) =>
    .ok (1, lua_pushboolean (log s1 (.remove_dir dir)) (fs.remove_dir dir == true))
  | (none, s1) => .ok (1, lua_pushboolean s1 (false == true))

/-- The native function `os_lua_api::isdir`.  -/
def isdir (fs : os) (s : lua_State) : Result :=
  match get_string s get_string_index with
  | (none, s1) => .ok (0, s1)
  | (some path, s1) =>
    .ok (1, lua_pushboolean (log s1 (.get_path_type path))
      (fs.get_path_type path == path_type.path_type_dir))

/-- The native function `os_lua_api::isfile`.  -/
def isfile (fs : os) (s : lua_State) : Result :=
  match get_string s get_string_index with
  | (none, s1) => .ok (0, s1)
  | (some path, s1) =>
    .ok (1, lua_pushboolean (log s1 (.get_path_type path))
      (fs.get_path_type path == path_type.path_type_file))

/-- The three values `nil, "error", 1` that `remove` and `rename` push on
failure.  -/
def push_error (s : lua_State) : lua_State :=
  lua_pushinteger (lua_pushstring (lua_pushnil s) "error") 1

/-- The native function `os_lua_api::remove`.  -/
def remove (fs : os) (s : lua_State) : Result :=
  match get_string s get_string_index with
  | (none, s1) => .ok (0, s1)
  | (some path, s1) =>
    if fs.unlink path then .ok (1, lua_pushboolean (log s1 (.unlink path)) true)
    else .ok (3, push_error (log s1 (.unlink path)))

/-- The native function `os_lua_api::rename`; `os::move` is evaluated only
when both strings are present.  -/
def rename (fs : os) (s : lua_State) : Result :=
  match get_string s 1 with
  | (src, s1) =>
    match get_string s1 2 with
    | (dest, s2) =>
      match src, dest with
      | some a, some b =>
        if fs.move a b then .ok (1, lua_pushboolean (log s2 (.move a b)) true)
        else .ok (3, push_error (log s2 (.move a b)))
      | _, _ => .ok (3, push_error s2)

/-- The native function `os_lua_api::copy`.  -/
def copy (fs : os) (s : lua_State) : Result :=
  match get_string s 1 with
  | (src, s1) =>
    match get_string s1 2 with
    | (dest, s2) =>
      match src, dest with
      | some a, some b =>
        .ok (1, lua_pushboolean (log s2 (.copy a b)) (fs.copy a b == true))
      | _, _ => .ok (0, s2)

/-- The `while (globber.next(file))` loop of `glob_impl`, run over the paths
the globber has left to yield: each successful `next()` is followed by one
`lua_pushstring` and one `lua_rawseti(state, -2, i++)`, and the `next()`
that signals exhaustion ends the loop.  The counter is a C `int`; the model
follows the source below 2^31 paths.  -/
def glob_impl_loop (paths : List String) (i : Int) (s : lua_State) :
    Except LuaError lua_State :=
  match paths with
  | [] => .ok (log s .globber_next)
  | file :: rest =>
    match lua_rawseti (lua_pushstring (log s .globber_next) file) (-2) i with
    | .ok s' => glob_impl_loop rest (i + 1) s'
    | .error e => .error e

/-- Lines 171 to 184 of `glob_impl`, reached with a mask that is not null:
the result table is created, the context and the globber are built, and the
globber is drained into the table.  -/
def glob_impl_drain (fs : os) (s : lua_State) (mask : String) (dirs_only : Bool) : Result :=
  let s1 := lua_createtable s 0 0
  let glob_ctx : context := { mask := mask, root := "", dirs_only := dirs_only }
  let s2 := log s1 (.globber glob_ctx)
  match glob_impl_loop (fs.glob glob_ctx) 1 s2 with
  | .ok s3 => .ok (1, s3)
  | .error e => .error e

/-- The function `os_lua_api::glob_impl`.  -/
def glob_impl (fs : os) (s : lua_State) (dirs_only : Bool) : Result :=
  match get_string s get_string_index with
  | (none, s1) => .ok (0, s1)
  | (some mask, s1) => glob_impl_drain fs s1 mask dirs_only

/-- The native function `os_lua_api::globdirs`.  -/
def globdirs (fs : os) (s : lua_State) : Result := glob_impl fs s true

/-- The native function `os_lua_api::globfiles`.  -/
def globfiles (fs : os) (s : lua_State) : Result := glob_impl fs s false

/-- The native function `os_lua_api::getenv`.  -/
def getenv (fs : os) (s : lua_State) : Result :=
  match get_string s get_string_index with
  | (none, s1) => .ok (0, s1)
  | (some name, s1) =>
    match fs.get_env name with
    | none => .ok (0, log s1 (.get_env name))
    | some value => .ok (1, lua_pushstring (log s1 (.get_env name)) value)

/-- The native function that a `CFunction` identity stands for.  -/
def CFunction.run (f : CFunction) (fs : os) (s : lua_State) : Result :=
  match f with
  | .chdir => Clink.chdir fs s
  | .getcwd => Clink.getcwd fs s
  | .mkdir => Clink.mkdir fs s
  | .rmdir => Clink.rmdir fs s
  | .isdir => Clink.isdir fs s
  | .isfile => Clink.isfile fs s
  | .remove => Clink.remove fs s
  | .rename => Clink.rename fs s
  | .copy => Clink.copy fs s
  | .globdirs => Clink.globdirs fs s
  | .globfiles => Clink.globfiles fs s
  | .getenv => Clink.getenv fs s

/-! ## What the two loops assign -/

/-- The fields a run of the registration loop assigns, applied to a table.  -/
def register (ms : List (String × CFunction)) (t : Table) : Table :=
  ms.foldl (fun acc m => Table.set acc (.string m.1) (.cfunction m.2)) t

/-- The fields the glob loop assigns, applied to a table: the paths in
order, at the consecutive integers from `i` on.  -/
def store_paths (paths : List String) (i : Int) (t : Table) : Table :=
  match paths with
  | [] => t
  | file :: rest => store_paths rest (i + 1) (Table.set t (.number i) (.string file))

/-! ## Concrete inputs -/

/-- A host used for the concrete inputs: `tmp` and `src` are directories,
`foo.txt` and `a.txt` are files, every primitive succeeds on them, and a
glob over `*.txt` yields the two files.  -/
def demo_fs : os where
  set_current_dir := fun d => d == "tmp" || d == "src"
  get_current_dir := "tmp"
  make_dir := fun d => d == "new"
  remove_dir := fun d => d == "tmp"
  get_path_type := fun p =>
    if p == "tmp" || p == "src" then path_type.path_type_dir
    else if p == "foo.txt" || p == "a.txt" then path_type.path_type_file
    else path_type.path_type_invalid
  unlink := fun p => p == "foo.txt" || p == "a.txt"
  move := fun a _ => a == "foo.txt" || a == "a.txt"
  copy := fun a _ => a == "foo.txt" || a == "a.txt"
  get_env := fun n => if n == "HOME" then some "tmp" else none
  glob := fun ctx =>
    if ctx.mask == "*.txt" then (if ctx.dirs_only then [] else ["a.txt", "foo.txt"])
    else if ctx.mask == "*" then (if ctx.dirs_only then ["src", "tmp"] else ["a.txt", "foo.txt"])
    else if ctx.mask == "foo.txt" then (if ctx.dirs_only then [] else ["foo.txt"])
    else []

/-- The state of a call with the given arguments: the arguments are the
whole stack, the heap holds the `os` table with one earlier field, and
nothing has been logged.  -/
def call_with (args : List LuaValue) : lua_State :=
  { stack := args,
    heap := [[(.string "clock", .lfunction 7)]],
    globals := [("os", .table 0)],
    calls := [] }

/-! ## The accessor and the stack -/

/-- The accessor yields the null pointer and leaves the state as it was, on
every state and index.  -/
theorem get_string_none (s : lua_State) (index : Int) : get_string s index = (none, s) := by
  unfold get_string
  split
  · rfl
  · rename_i h
    simp only [Bool.or_eq_true, decide_eq_true_eq, not_or] at h
    obtain ⟨_, h2⟩ := h
    unfold lua_isstring at h2
    unfold lua_tostring
    split <;> simp_all

/-- Index -2 designates the value right below the top.  -/
theorem index2value_below_top (s : lua_State) (pre : List LuaValue) (a b : LuaValue)
    (h : s.stack = pre ++ [a, b]) : index2value s (-2) = some a := by
  have hp : stack_pos s (-2) = some pre.length := by
    unfold stack_pos
    simp [h]
  simp only [index2value, hp, h]
  rw [List.getElem?_append_right (Nat.le_refl _)]
  simp

/-- Storing the top value into the table right below it pops the value and
updates that table.  -/
theorem settable_below_top (s : lua_State) (pre : List LuaValue) (r : Nat) (v k : LuaValue)
    (e : LuaError) (t : Table) (hst : s.stack = pre ++ [.table r, v])
    (hr : s.heap[r]? = some t) :
    settable s (-2) k e
      = .ok { s with stack := pre ++ [.table r], heap := s.heap.set r (Table.set t k v) } := by
  have h1 : s.stack.getLast? = some v := by simp [hst]
  have h2 : s.stack.dropLast = pre ++ [.table r] := by
    rw [hst]
    have : pre ++ [LuaValue.table r, v] = (pre ++ [LuaValue.table r]) ++ [v] := by simp
    rw [this, List.dropLast_concat]
  unfold settable
  rw [h1, index2value_below_top s pre _ v hst]
  simp [hr, h2]

/-- One iteration of the glob loop with the result table on top: the path is
stored at the counter, the table stays on top.  -/
theorem glob_impl_loop_step (file : String) (rest : List String) (i : Int) (s : lua_State)
    (pre : List LuaValue) (r : Nat) (t : Table) (hst : s.stack = pre ++ [.table r])
    (hr : s.heap[r]? = some t) :
    glob_impl_loop (file :: rest) i s
      = glob_impl_loop rest (i + 1)
          { s with heap := s.heap.set r (Table.set t (.number i) (.string file)),
                   calls := s.calls ++ [.globber_next] } := by
  have h := settable_below_top (lua_pushstring (log s .globber_next) file) pre r
    (.string file) (.number i) .api_check t (by simp [lua_pushstring, push, log, hst])
    (by simpa [lua_pushstring, push, log] using hr)
  simp only [glob_impl_loop, lua_rawseti, h]
  simp [lua_pushstring, push, log, hst]

/-- Writing back the table a heap cell already holds changes nothing.  -/
theorem heap_set_self (heap : List Table) (r : Nat) (t : Table) (hr : heap[r]? = some t) :
    heap.set r t = heap := by
  apply List.ext_getElem?
  intro n
  by_cases hn : r = n
  · subst hn
    simp [List.getElem?_set, hr]
    by_contra h
    simp [List.getElem?_eq_none (Nat.le_of_not_lt h)] at hr
  · simp [List.getElem?_set, hn]

/-- The glob loop, run with the result table on top of the stack, ends
without error over every sequence of paths: it stores the paths in order
into that table, calls `next()` once more than there are paths, and leaves
the stack as it found it.  -/
theorem glob_impl_loop_eq (paths : List String) :
    ∀ (i : Int) (s : lua_State) (pre : List LuaValue) (r : Nat) (t : Table),
      s.stack = pre ++ [.table r] → s.heap[r]? = some t →
      glob_impl_loop paths i s
        = .ok { s with heap := s.heap.set r (store_paths paths i t),
                       calls := s.calls ++ List.replicate (paths.length + 1) .globber_next } := by
  induction paths with
  | nil =>
    intro i s pre r t _ hr
    simp [glob_impl_loop, store_paths, heap_set_self s.heap r t hr, log]
  | cons file rest ih =>
    intro i s pre r t hst hr
    have hlt : r < s.heap.length := by
      by_contra hc
      simp [List.getElem?_eq_none (Nat.le_of_not_lt hc)] at hr
    rw [glob_impl_loop_step file rest i s pre r t hst hr]
    rw [ih (i + 1)
      { s with heap := s.heap.set r (Table.set t (.number i) (.string file)),
               calls := s.calls ++ [.globber_next] }
      pre r (Table.set t (.number i) (.string file)) hst (by simp [hlt])]
    simp [store_paths, List.replicate_succ]

/-- Lines 171 to 184 return one value, the new table, pushed on the stack; the
table holds the paths of the globber built over the context in order, and
the log gains one globber construction and the calls of `next()`.  -/
theorem glob_impl_drain_eq (fs : os) (s : lua_State) (mask : String) (dirs_only : Bool) :
    glob_impl_drain fs s mask dirs_only
      = .ok (1, { s with
          stack := s.stack ++ [.table s.heap.length],
          heap := s.heap ++ [store_paths (fs.glob ⟨mask, "", dirs_only⟩) 1 []],
          calls := s.calls ++ [.globber ⟨mask, "", dirs_only⟩]
            ++ List.replicate ((fs.glob ⟨mask, "", dirs_only⟩).length + 1) .globber_next }) := by
  have h := glob_impl_loop_eq (fs.glob ⟨mask, "", dirs_only⟩) 1
    (log (lua_createtable s 0 0) (.globber ⟨mask, "", dirs_only⟩))
    s.stack s.heap.length [] (by simp [log, lua_createtable]) (by simp [log, lua_createtable])
  simp only [glob_impl_drain, h]
  simp [log, lua_createtable]

/-! ## Tables -/

/-- A removed field reads as nil.  -/
theorem Table.get_erase_same (t : Table) (k : LuaValue) : Table.get (Table.erase t k) k = .nil := by
  induction t with
  | nil => rfl
  | cons p rest ih =>
    obtain ⟨k', v⟩ := p
    by_cases h : k' = k <;> simp [Table.erase, Table.get, h, ih]

/-- Removing a field leaves the other fields as they were.  -/
theorem Table.get_erase_other (t : Table) (k k' : LuaValue) (h : k ≠ k') :
    Table.get (Table.erase t k) k' = Table.get t k' := by
  induction t with
  | nil => rfl
  | cons p rest ih =>
    obtain ⟨k0, v⟩ := p
    by_cases h0 : k0 = k
    · subst h0
      simp [Table.erase, Table.get, h, ih]
    · by_cases h1 : k0 = k'
      · subst h1
        simp [Table.erase, Table.get, h0]
      · simp [Table.erase, Table.get, h0, h1, ih]

/-- Reading a table after an assignment.  -/
theorem Table.get_set (t : Table) (k v k' : LuaValue) :
    Table.get (Table.set t k v) k' = if k = k' then v else Table.get t k' := by
  unfold Table.set
  by_cases hv : v = .nil
  · by_cases h : k = k'
    · subst h
      simp [hv, Table.get_erase_same]
    · simp [hv, h, Table.get_erase_other t k k' h]
  · by_cases h : k = k'
    · subst h
      simp [hv, Table.get]
    · simp [hv, h, Table.get, Table.get_erase_other t k k' h]

/-! ## Registration -/

/-- The registration loop, run with the `os` table on top of the stack,
assigns each method to its name in that table and changes nothing else.  -/
theorem initialise_loop_ok (ms : List (String × CFunction)) :
    ∀ (s : lua_State) (pre : List LuaValue) (r : Nat) (t : Table),
      s.stack = pre ++ [.table r] → s.heap[r]? = some t →
      initialise_loop ms s = .ok { s with heap := s.heap.set r (register ms t) } := by
  induction ms with
  | nil =>
    intro s pre r t _ hr
    simp [initialise_loop, register, heap_set_self s.heap r t hr]
  | cons m rest ih =>
    intro s pre r t hst hr
    have h := settable_below_top (lua_pushcfunction s m.2) pre r (.cfunction m.2)
      (.string m.1) .index_non_table t (by simp [lua_pushcfunction, push, hst])
      (by simpa [lua_pushcfunction, push] using hr)
    have hlt : r < s.heap.length := by
      by_contra hc
      simp [List.getElem?_eq_none (Nat.le_of_not_lt hc)] at hr
    simp only [initialise_loop, lua_setfield, h]
    rw [ih _ pre r (Table.set t (.string m.1) (.cfunction m.2)) rfl
      (by simp [lua_pushcfunction, push, hlt])]
    simp [lua_pushcfunction, push, hst, register]

/-! ## The paths the glob loop stores -/

/-- Keys outside the range the loop assigns keep their value.  -/
theorem get_store_paths_other (paths : List String) :
    ∀ (i : Int) (t : Table) (key : LuaValue),
      (∀ k : Nat, k < paths.length → key ≠ .number (i + k)) →
      Table.get (store_paths paths i t) key = Table.get t key := by
  induction paths with
  | nil => intro i t key _; rfl
  | cons file rest ih =>
    intro i t key h
    have h0 : LuaValue.number i ≠ key := by
      have := h 0 (by simp)
      simpa [eq_comm] using this
    have hrest : ∀ k : Nat, k < rest.length → key ≠ .number (i + 1 + k) := by
      intro k hk
      have := h (k + 1) (by simpa using hk)
      have e : i + ((k + 1 : Nat) : Int) = i + 1 + k := by push_cast; ring
      rwa [e] at this
    rw [store_paths, ih (i + 1) _ key hrest, Table.get_set, if_neg h0]

/-- The key `i + k` holds the path of position `k`.  -/
theorem get_store_paths (paths : List String) :
    ∀ (i : Int) (t : Table) (k : Nat) (hk : k < paths.length),
      Table.get (store_paths paths i t) (.number (i + k)) = .string (paths.get ⟨k, hk⟩) := by
  induction paths with
  | nil => intro i t k hk; simp at hk
  | cons file rest ih =>
    intro i t k hk
    cases k with
    | zero =>
      rw [store_paths, get_store_paths_other rest (i + 1) _ _ (by
        intro k _ h
        simp only [LuaValue.number.injEq] at h
        omega)]
      simp [Table.get_set]
    | succ k =>
      have e : i + ((k + 1 : Nat) : Int) = i + 1 + k := by push_cast; ring
      rw [store_paths, e, ih (i + 1) _ k (by simpa using hk)]
      simp

/-! ## Registration of the native functions -/

/-- C8: when the global `os` is a table, `initialise` succeeds and leaves
that table with each of the twelve names chdir, getcwd, mkdir, rmdir, isdir,
isfile, remove, rename, copy, globdirs, globfiles, getenv bound to the
native function of the same name; the twelve names are pairwise distinct,
and every other field of the table reads as before.  -/
theorem initialise_binds_methods (s : lua_State) (r : Nat) (t : Table)
    (hos : global s "os" = .table r) (hr : s.heap[r]? = some t) :
    ∃ s' t', initialise s = .ok s' ∧ s'.heap[r]? = some t' ∧ global s' "os" = .table r
      ∧ Table.get t' (.string "chdir") = .cfunction .chdir
      ∧ Table.get t' (.string "getcwd") = .cfunction .getcwd
      ∧ Table.get t' (.string "mkdir") = .cfunction .mkdir
      ∧ Table.get t' (.string "rmdir") = .cfunction .rmdir
      ∧ Table.get t' (.string "isdir") = .cfunction .isdir
      ∧ Table.get t' (.string "isfile") = .cfunction .isfile
      ∧ Table.get t' (.string "remove") = .cfunction .remove
      ∧ Table.get t' (.string "rename") = .cfunction .rename
      ∧ Table.get t' (.string "copy") = .cfunction .copy
      ∧ Table.get t' (.string "globdirs") = .cfunction .globdirs
      ∧ Table.get t' (.string "globfiles") = .cfunction .globfiles
      ∧ Table.get t' (.string "getenv") = .cfunction .getenv
      ∧ (methods.map Prod.fst).Nodup
      ∧ ∀ k : LuaValue, k ∉ methods.map (fun m => LuaValue.string m.1) →
          Table.get t' k = Table.get t k := by
  have hlt : r < s.heap.length := by
    by_contra hc
    simp [List.getElem?_eq_none (Nat.le_of_not_lt hc)] at hr
  have h := initialise_loop_ok methods (lua_getglobal s "os") s.stack r t
    (by simp [lua_getglobal, push, hos]) (by simpa [lua_getglobal, push] using hr)
  refine ⟨_, register methods t, by rw [initialise, h], ?_, ?_, ?_⟩
  · simp [lua_getglobal, push, hlt]
  · simpa [global, lua_getglobal, push] using hos
  · refine ⟨?_, ?_, ?_, ?_, ?_, ?_, ?_, ?_, ?_, ?_, ?_, ?_, ?_, ?_⟩
    any_goals simp [register, methods, Table.get_set]
    intro k h1 h2 h3 h4 h5 h6 h7 h8 h9 h10 h11 h12
    simp [*, eq_comm]

/-- At the call state whose `os` table holds the one field `clock`,
`initialise` binds the twelve names and keeps `clock`.  -/
theorem initialise_binds_methods_witness :
    global (call_with []) "os" = .table 0
      ∧ (call_with []).heap[0]? = some [(.string "clock", .lfunction 7)]
      ∧ ∃ s' t', initialise (call_with []) = .ok s' ∧ s'.heap[0]? = some t'
        ∧ Table.get t' (.string "chdir") = .cfunction .chdir
        ∧ Table.get t' (.string "getenv") = .cfunction .getenv
        ∧ Table.get t' (.string "clock") = .lfunction 7 := by
  refine ⟨rfl, rfl, ?_⟩
  obtain ⟨s', t', h1, h2, _, h3, _, _, _, _, _, _, _, _, _, _, h4, _, h5⟩ :=
    initialise_binds_methods (call_with []) 0 [(.string "clock", .lfunction 7)] rfl rfl
  refine ⟨s', t', h1, h2, h3, h4, ?_⟩
  rw [h5 (.string "clock") (by decide)]
  rfl

/-! ## The accessor on every input -/

/-- C9: `get_string` returns the null pointer on every state and index, the
state untouched: either the stack holds fewer than `index` values, or the
value at `index` satisfies `lua_isstring`, or `lua_tostring` itself yields
null.  So every operation that reads its argument through `get_string`
takes its missing-argument branch on every input (`chdir`, `mkdir`, `rmdir`
push false; `isdir`, `isfile`, `remove`, `copy`, `glob_impl`, `getenv`
return no value; `rename` returns the error triple), and none of them adds
a facade or globber call to the log.  -/
theorem get_string_always_null (fs : os) (s : lua_State) (index : Int) (dirs_only : Bool) :
    get_string s index = (none, s)
      ∧ (lua_gettop s < index ∨ lua_isstring s index = true
          ∨ lua_tostring s index = (none, s))
      ∧ chdir fs s = .ok (1, lua_pushboolean s false)
      ∧ mkdir fs s = .ok (1, lua_pushboolean s false)
      ∧ rmdir fs s = .ok (1, lua_pushboolean s false)
      ∧ isdir fs s = .ok (0, s)
      ∧ isfile fs s = .ok (0, s)
      ∧ remove fs s = .ok (0, s)
      ∧ rename fs s = .ok (3, push_error s)
      ∧ copy fs s = .ok (0, s)
      ∧ glob_impl fs s dirs_only = .ok (0, s)
      ∧ getenv fs s = .ok (0, s)
      ∧ (lua_pushboolean s false).calls = s.calls
      ∧ (push_error s).calls = s.calls := by
  refine ⟨get_string_none s index, ?_, ?_, ?_, ?_, ?_, ?_, ?_, ?_, ?_, ?_, ?_, rfl, rfl⟩
  · by_cases h1 : lua_gettop s < index
    · exact Or.inl h1
    · by_cases h2 : lua_isstring s index = true
      · exact Or.inr (Or.inl h2)
      · have h := get_string_none s index
        simp only [get_string, h1, h2, decide_False, Bool.or_self, Bool.false_eq_true,
          if_false] at h
        exact Or.inr (Or.inr h)
  all_goals simp [chdir, mkdir, rmdir, isdir, isfile, remove, rename, copy, glob_impl, getenv,
    get_string_none]

/-! ## Returned counts -/

/-- C10: each of the twelve native functions, on every state and every
answer of the facade, returns without error the number of values it has
pushed above the stack it was given, and that number is 0, 1 or 3.  In
`glob_impl`, with the result table on top of the stack, an iteration pushes
one string and stores it, leaving the table on top; the whole loop leaves
the stack as it found it; so lines 171 to 184 return the count 1 with the
new table on top.  -/
theorem returned_count_is_pushed_count (fs : os) (s : lua_State) (f : CFunction)
    (st : lua_State) (pre : List LuaValue) (r : Nat) (t : Table)
    (file : String) (rest : List String) (i : Int) (mask : String) (dirs_only : Bool)
    (hst : st.stack = pre ++ [.table r]) (hr : st.heap[r]? = some t) :
    (∃ n s' pushed, f.run fs s = .ok (n, s') ∧ s'.stack = s.stack ++ pushed
        ∧ (pushed.length : Int) = n ∧ (n = 0 ∨ n = 1 ∨ n = 3))
      ∧ (lua_pushstring (log st .globber_next) file).stack = st.stack ++ [.string file]
      ∧ (∃ st1, lua_rawseti (lua_pushstring (log st .globber_next) file) (-2) i = .ok st1
          ∧ st1.stack = st.stack
          ∧ st1.heap[r]? = some (Table.set t (.number i) (.string file))
          ∧ glob_impl_loop (file :: rest) i st = glob_impl_loop rest (i + 1) st1)
      ∧ (∃ st2, glob_impl_loop (file :: rest) i st = .ok st2 ∧ st2.stack = st.stack)
      ∧ (∃ s', glob_impl_drain fs s mask dirs_only = .ok (1, s')
          ∧ s'.stack = s.stack ++ [.table s.heap.length]
          ∧ s'.heap[s.heap.length]? = some (store_paths (fs.glob ⟨mask, "", dirs_only⟩) 1 [])) := by
  have hlt : r < st.heap.length := by
    by_contra hc
    simp [List.getElem?_eq_none (Nat.le_of_not_lt hc)] at hr
  refine ⟨?_, ?_, ?_, ?_, ?_⟩
  · cases f
    case getcwd => exact ⟨1, _, [.string fs.get_current_dir], rfl, rfl, rfl, Or.inr (Or.inl rfl)⟩
    case rename =>
      exact ⟨3, push_error s, [.nil, .string "error", .number 1],
        by simp [CFunction.run, rename, get_string_none],
        by simp [push_error, lua_pushinteger, lua_pushstring, lua_pushnil, push], rfl,
        Or.inr (Or.inr rfl)⟩
    case chdir =>
      exact ⟨1, lua_pushboolean s false, [.boolean false],
        by simp [CFunction.run, chdir, get_string_none], rfl, rfl, Or.inr (Or.inl rfl)⟩
    case mkdir =>
      exact ⟨1, lua_pushboolean s false, [.boolean false],
        by simp [CFunction.run, mkdir, get_string_none], rfl, rfl, Or.inr (Or.inl rfl)⟩
    case rmdir =>
      exact ⟨1, lua_pushboolean s false, [.boolean false],
        by simp [CFunction.run, rmdir, get_string_none], rfl, rfl, Or.inr (Or.inl rfl)⟩
    all_goals
      exact ⟨0, s, [], by simp [CFunction.run, isdir, isfile, remove, copy, globdirs,
        globfiles, glob_impl, getenv, get_string_none], by simp, rfl, Or.inl rfl⟩
  · simp [lua_pushstring, push, log]
  · have h := settable_below_top (lua_pushstring (log st .globber_next) file) pre r
      (.string file) (.number i) .api_check t (by simp [lua_pushstring, push, log, hst])
      (by simpa [lua_pushstring, push, log] using hr)
    refine ⟨_, by rw [lua_rawseti, h], ?_, ?_, ?_⟩
    · simp [hst]
    · simp [lua_pushstring, push, log, hlt]
    · rw [glob_impl_loop_step file rest i st pre r t hst hr]
      simp [lua_pushstring, push, log, hst]
  · exact ⟨_, glob_impl_loop_eq (file :: rest) i st pre r t hst hr, rfl⟩
  · exact ⟨_, glob_impl_drain_eq fs s mask dirs_only, rfl, by simp⟩

/-- The counts of `rename` on two strings and of one glob iteration over a
stack that holds the mask and the result table.  -/
theorem returned_count_is_pushed_count_witness :
    (∃ n s' pushed, rename demo_fs (call_with [.string "foo.txt", .string "bar.txt"])
          = .ok (n, s')
        ∧ s'.stack = [.string "foo.txt", .string "bar.txt"] ++ pushed
        ∧ (pushed.length : Int) = n ∧ (n = 0 ∨ n = 1 ∨ n = 3))
      ∧ (∃ st2, glob_impl_loop ["a.txt", "foo.txt"] 1
            { call_with [.string "*.txt", .table 0] with heap := [[]] } = .ok st2
          ∧ st2.stack = [.string "*.txt", .table 0]) := by
  have h := returned_count_is_pushed_count demo_fs
    (call_with [.string "foo.txt", .string "bar.txt"]) .rename
    { call_with [.string "*.txt", .table 0] with heap := [[]] } [.string "*.txt"] 0 []
    "a.txt" ["foo.txt"] 1 "*.txt" false rfl rfl
  exact ⟨h.1, h.2.2.2.1⟩

/-! ## The empty mask -/

/-- C3, as stated, fails: on the empty-string mask `globfiles` and
`globdirs` raise no error and push no error value; each returns normally
with no value, the state as it was.  -/
theorem empty_mask_returns_normally :
    globfiles demo_fs (call_with [.string ""]) = .ok (0, call_with [.string ""])
      ∧ globdirs demo_fs (call_with [.string ""]) = .ok (0, call_with [.string ""])
      ∧ (∀ e, globfiles demo_fs (call_with [.string ""]) ≠ .error e)
      ∧ (∀ e, globdirs demo_fs (call_with [.string ""]) ≠ .error e) := by
  refine ⟨rfl, rfl, ?_, ?_⟩ <;> intro e h <;> cases h

/-- C3, amended: `glob_impl` reports no error, on the empty-string mask as
on any argument: it returns normally with no value or with one.  Its one
guard before the traversal is the null test: whenever `get_string` yields no
mask the call returns no value and nothing is added to the log, so no
globber is constructed and `next()` is never called.  The mask is not
tested for emptiness: lines 171 to 184, run on the empty mask, build the
globber over it and return the table of its paths.  -/
theorem glob_impl_reports_no_error (fs : os) (s : lua_State) (dirs_only : Bool) :
    (∃ n s', glob_impl fs s dirs_only = .ok (n, s') ∧ (n = 0 ∨ n = 1))
      ∧ (∀ e, glob_impl fs s dirs_only ≠ .error e)
      ∧ ((get_string s get_string_index).1 = none →
          ∃ s', glob_impl fs s dirs_only = .ok (0, s') ∧ s'.stack = s.stack
            ∧ s'.calls = s.calls)
      ∧ (∃ s', glob_impl_drain fs s "" dirs_only = .ok (1, s')
          ∧ s'.stack = s.stack ++ [.table s.heap.length]
          ∧ s'.calls = s.calls ++ [.globber ⟨"", "", dirs_only⟩]
              ++ List.replicate ((fs.glob ⟨"", "", dirs_only⟩).length + 1) .globber_next) := by
  have hok : ∃ n s', glob_impl fs s dirs_only = .ok (n, s') ∧ (n = 0 ∨ n = 1) := by
    unfold glob_impl
    split
    · exact ⟨0, _, rfl, Or.inl rfl⟩
    · rename_i mask s1 _
      exact ⟨1, _, glob_impl_drain_eq fs s1 mask dirs_only, Or.inr rfl⟩
  refine ⟨hok, ?_, ?_, ⟨_, glob_impl_drain_eq fs s "" dirs_only, rfl, rfl⟩⟩
  · intro e he
    obtain ⟨n, s', h, _⟩ := hok
    rw [h] at he
    cases he
  · intro h
    have hs : (get_string s get_string_index).2 = s := by rw [get_string_none]
    refine ⟨(get_string s get_string_index).2, ?_, by rw [hs], by rw [hs]⟩
    unfold glob_impl
    split
    · rename_i s1 heq
      rw [heq]
    · rename_i mask s1 heq
      rw [heq] at h
      cases h

/-- The empty-string mask on the demo host: `get_string` yields no mask,
and `globfiles` returns no value and logs nothing.  -/
theorem glob_impl_reports_no_error_witness :
    (get_string (call_with [.string ""]) get_string_index).1 = none
      ∧ (∃ s', glob_impl demo_fs (call_with [.string ""]) false = .ok (0, s')
          ∧ s'.stack = [.string ""] ∧ s'.calls = []) :=
  ⟨rfl, (glob_impl_reports_no_error demo_fs (call_with [.string ""]) false).2.2.1 rfl⟩

/-! ## String arguments: the code at concrete inputs -/

/-- C1 at a concrete input: the globber over `*.txt` yields two paths, and
`globfiles` called with the string `*.txt` returns no value and pushes no
table, while lines 171 to 184 run on that mask return the table of the two
paths.  -/
theorem globfiles_string_mask_returns_nothing :
    demo_fs.glob ⟨"*.txt", "", false⟩ = ["a.txt", "foo.txt"]
      ∧ globfiles demo_fs (call_with [.string "*.txt"])
          = .ok (0, call_with [.string "*.txt"])
      ∧ glob_impl_drain demo_fs (call_with [.string "*.txt"]) "*.txt" false
          = .ok (1, { call_with [.string "*.txt", .table 1] with
              heap := [[(.string "clock", .lfunction 7)],
                [(.number 2, .string "foo.txt"), (.number 1, .string "a.txt")]],
              calls := [.globber ⟨"*.txt", "", false⟩, .globber_next, .globber_next,
                .globber_next] }) := by
  refine ⟨by decide, rfl, rfl⟩

/-- C2 at a concrete input: `globdirs` and `globfiles` called with the
string `*` return no value and leave the log empty, so no context and no
globber is created, while lines 171 to 184 run on that mask log one globber
over the context of mask `*`, empty root and the flag.  -/
theorem glob_string_mask_builds_no_globber :
    globdirs demo_fs (call_with [.string "*"]) = .ok (0, call_with [.string "*"])
      ∧ globfiles demo_fs (call_with [.string "*"]) = .ok (0, call_with [.string "*"])
      ∧ (call_with [.string "*"]).calls = []
      ∧ (∃ s', glob_impl_drain demo_fs (call_with [.string "*"]) "*" true = .ok (1, s')
          ∧ s'.calls = [.globber ⟨"*", "", true⟩, .globber_next, .globber_next,
              .globber_next]) :=
  ⟨rfl, rfl, rfl, _, rfl, rfl⟩

/-- C4 at a concrete input: `foo.txt` exists and is a file, `tmp` exists and
is a directory, and `globfiles` on the mask `foo.txt` as `globdirs` on the
mask `tmp` return no value at all.  -/
theorem glob_existing_path_returns_nothing :
    demo_fs.get_path_type "foo.txt" = path_type.path_type_file
      ∧ globfiles demo_fs (call_with [.string "foo.txt"])
          = .ok (0, call_with [.string "foo.txt"])
      ∧ demo_fs.get_path_type "tmp" = path_type.path_type_dir
      ∧ globdirs demo_fs (call_with [.string "tmp"]) = .ok (0, call_with [.string "tmp"]) :=
  ⟨by decide, rfl, by decide, rfl⟩

/-- C5 at a concrete input: `tmp` is a directory and `foo.txt` a file, and
`isdir` on the string `tmp` as `isfile` on the string `foo.txt` return no
value, without asking the facade.  -/
theorem isdir_string_path_returns_nothing :
    demo_fs.get_path_type "tmp" = path_type.path_type_dir
      ∧ isdir demo_fs (call_with [.string "tmp"]) = .ok (0, call_with [.string "tmp"])
      ∧ demo_fs.get_path_type "foo.txt" = path_type.path_type_file
      ∧ isfile demo_fs (call_with [.string "foo.txt"])
          = .ok (0, call_with [.string "foo.txt"]) :=
  ⟨by decide, rfl, by decide, rfl⟩

/-- C6 at a concrete input: the facade succeeds on `tmp` for
`set_current_dir` and `remove_dir` and on `new` for `make_dir`, and `chdir`,
`rmdir` and `mkdir` called with these strings push false and log no call.  -/
theorem chdir_string_dir_pushes_false :
    demo_fs.set_current_dir "tmp" = true
      ∧ chdir demo_fs (call_with [.string "tmp"])
          = .ok (1, call_with [.string "tmp", .boolean false])
      ∧ demo_fs.make_dir "new" = true
      ∧ mkdir demo_fs (call_with [.string "new"])
          = .ok (1, call_with [.string "new", .boolean false])
      ∧ demo_fs.remove_dir "tmp" = true
      ∧ rmdir demo_fs (call_with [.string "tmp"])
          = .ok (1, call_with [.string "tmp", .boolean false]) :=
  ⟨by decide, rfl, by decide, rfl, by decide, rfl⟩

/-- C7 at a concrete input: the facade succeeds for `move` of `foo.txt` to
`bar.txt` and for `unlink` of `foo.txt`; `rename` called with the two
strings returns the triple nil, "error", 1 and logs no call, and `remove`
called with the string returns no value and logs no call.  -/
theorem rename_two_strings_returns_error :
    demo_fs.move "foo.txt" "bar.txt" = true
      ∧ rename demo_fs (call_with [.string "foo.txt", .string "bar.txt"])
          = .ok (3, call_with [.string "foo.txt", .string "bar.txt", .nil, .string "error",
              .number 1])
      ∧ demo_fs.unlink "foo.txt" = true
      ∧ remove demo_fs (call_with [.string "foo.txt"])
          = .ok (0, call_with [.string "foo.txt"]) :=
  ⟨by decide, rfl, by decide, rfl⟩

end Clink
